import Mathlib

set_option autoImplicit false

namespace PoolVerif

/-!
A shallow embedding of the object pool in `pool.go` (package `pool`).

The pool's mutable state (`closed`, `active`, the idle queue) is an explicit
record threaded through the operations.  The idle queue `p.idle` is a
`container/list` used front-first: `Put` inserts with `PushFront`, `Get`
reuses from `Front` (the most recently returned entry) and the timeout sweep
evicts from `Back` (the oldest entry); it is modelled as a Lean list whose
head is the front.  Go `int` fields and `time` values are modelled as `Int`.
Invocations of the optional `DropCallback` are modelled as an explicit output
list holding, in invocation order, the objects that would be passed to the
callback when one is configured.
-/

/-- Configuration fields of `Pool` (pool.go 17-30) that the operations read:
whether the `New` factory field is non-nil, the optional `TestOnBorrow`
validator (`true` models the validator returning a nil error), `MaxIdle`,
`MaxActive`, `IdleTimeout` and `Wait`. -/
structure PoolConfig (Obj : Type) where
  hasNew : Bool
  testOnBorrow : Option (Obj → Bool)
  MaxIdle : Int
  MaxActive : Int
  IdleTimeout : Int
  Wait : Bool

/-- The mutable state of a `Pool`: the `closed` flag, the `active` counter and
the idle queue, front first.  Each queue entry pairs the stored object with
the time it was pushed (`idleObj` in pool.go 32-35). -/
structure PoolState (Obj : Type) where
  closed : Bool
  active : Int
  idle : List (Obj × Int)
deriving DecidableEq, Repr

/-- `NewPool` (pool.go 37-42): a fresh pool is open, has no idle objects and a
zero active count. -/
def NewPool (Obj : Type) : PoolState Obj :=
  { closed := false, active := 0, idle := [] }

/-- The errors `Get` can return: the sentinel errors `ErrPoolClosed` and
`ErrPoolExhausted` (pool.go 12-15), or the factory's own error returned
verbatim. -/
inductive PoolErr (Err : Type) where
  | poolClosed
  | poolExhausted
  | constructionFailed (e : Err)
deriving DecidableEq, Repr

/-- The outcome of one sequential pass of `Get`: an object with a nil error, a
nil object with an error, the suspension on `p.cond.Wait()` a lone caller
never returns from (pool.go 121), or Go's nil-function-call panic when a
nil `New` field is invoked (pool.go 103). -/
inductive GetResult (Obj Err : Type) where
  | ok (o : Obj)
  | failure (e : PoolErr Err)
  | wouldBlock
  | nilFactoryCrash
deriving DecidableEq, Repr

/-- The timeout sweep loop of `Get` (pool.go 49-68) viewed on the idle queue
listed oldest first: while the oldest entry does not satisfy
`io.t.Add(timeout).After(now)`, i.e. while `t + timeout ≤ now`, it is
removed and its object dropped.  Returns the surviving entries (still
oldest first) and the dropped objects in removal order. -/
def sweepOldestFirst {Obj : Type} (timeout now : Int) :
    List (Obj × Int) → List (Obj × Int) × List Obj
  | [] => ([], [])
  | e :: rest =>
    if e.2 + timeout > now then (e :: rest, [])
    else
      ((sweepOldestFirst timeout now rest).1,
        e.1 :: (sweepOldestFirst timeout now rest).2)

/-- Phase one of `Get` (pool.go 49-68): when `IdleTimeout > 0` the expired
entries are removed from the back of the queue and `p.release()` decrements
`active` once per removal; otherwise the state is untouched. -/
def sweepPhase {Obj : Type} (cfg : PoolConfig Obj) (st : PoolState Obj)
    (now : Int) : PoolState Obj × List Obj :=
  if cfg.IdleTimeout > 0 then
    ({ st with
        idle := (sweepOldestFirst cfg.IdleTimeout now st.idle.reverse).1.reverse,
        active := st.active
          - (sweepOldestFirst cfg.IdleTimeout now st.idle.reverse).2.length },
      (sweepOldestFirst cfg.IdleTimeout now st.idle.reverse).2)
  else (st, [])

/-- The idle-reuse loop of `Get` (pool.go 71-91): pop the front (newest)
entry; when no validator is configured, or the validator returns nil, hand
out its object; otherwise drop it, `p.release()`, and try the next entry.
Returns the object found (if any), the remaining queue, and the dropped
objects in order. -/
def reuseLoop {Obj : Type} (test : Option (Obj → Bool)) :
    List (Obj × Int) → Option Obj × List (Obj × Int) × List Obj
  | [] => (none, [], [])
  | e :: rest =>
    match test with
    | none => (some e.1, rest, [])
    | some f =>
      if f e.1 then (some e.1, rest, [])
      else
        ((reuseLoop (some f) rest).1, (reuseLoop (some f) rest).2.1,
          e.1 :: (reuseLoop (some f) rest).2.2)

/-- Phase two of `Get`: the reuse loop run on the current queue, with `active`
decremented once per validation failure. -/
def reusePhase {Obj : Type} (cfg : PoolConfig Obj) (st : PoolState Obj) :
    Option Obj × PoolState Obj × List Obj :=
  ((reuseLoop cfg.testOnBorrow st.idle).1,
    { st with
        idle := (reuseLoop cfg.testOnBorrow st.idle).2.1,
        active := st.active - (reuseLoop cfg.testOnBorrow st.idle).2.2.length },
    (reuseLoop cfg.testOnBorrow st.idle).2.2)

/-- The tail of `Get` once the idle queue is exhausted (pool.go 93-121): the
closed check, the capacity check with the construction attempt (`active` is
incremented before the factory runs and released again on a factory
error), and the exhaustion / wait alternative.  Invoking a nil `New` field
is the nil-function-call panic, with `active` already incremented. -/
def acquireTail {Obj Err : Type} (cfg : PoolConfig Obj) (st2 : PoolState Obj)
    (factory : Except Err Obj) : GetResult Obj Err × PoolState Obj :=
  if st2.closed then (.failure .poolClosed, st2)
  else if cfg.MaxActive = 0 ∨ st2.active < cfg.MaxActive then
    if cfg.hasNew then
      match factory with
      | .ok o => (.ok o, { st2 with active := st2.active + 1 })
      | .error e => (.failure (.constructionFailed e), st2)
    else (.nilFactoryCrash, { st2 with active := st2.active + 1 })
  else if cfg.Wait = false then (.failure .poolExhausted, st2)
  else (.wouldBlock, st2)

/-- One sequential pass of `Get` (pool.go 44-123).  `now` is the value
`nowFunc` returns during this call and `factory` is the result the `New`
factory would produce if it is called.  Returns the outcome, the new pool
state, and the objects passed to `DropCallback`, in order. -/
def Get {Obj Err : Type} (cfg : PoolConfig Obj) (st : PoolState Obj)
    (now : Int) (factory : Except Err Obj) :
    GetResult Obj Err × PoolState Obj × List Obj :=
  match (reusePhase cfg (sweepPhase cfg st now).1).1 with
  | some o =>
    (.ok o, (reusePhase cfg (sweepPhase cfg st now).1).2.1,
      (sweepPhase cfg st now).2 ++ (reusePhase cfg (sweepPhase cfg st now).1).2.2)
  | none =>
    ((acquireTail cfg (reusePhase cfg (sweepPhase cfg st now).1).2.1 factory).1,
      (acquireTail cfg (reusePhase cfg (sweepPhase cfg st now).1).2.1 factory).2,
      (sweepPhase cfg st now).2 ++ (reusePhase cfg (sweepPhase cfg st now).1).2.2)

/-- `Put` (pool.go 125-151): on an open pool the object is pushed at the front
of the queue stamped `now`; if the queue length now exceeds `MaxIdle`, the
back entry is removed, `p.release()` decrements `active`, and the removed
object is dropped; otherwise `Put` returns with `active` unchanged.  On a
closed pool the object is never admitted: `active` is decremented and the
object itself is dropped. -/
def Put {Obj : Type} (cfg : PoolConfig Obj) (st : PoolState Obj) (now : Int)
    (obj : Obj) : PoolState Obj × List Obj :=
  if st.closed = false then
    if ((((obj, now) :: st.idle).length : Int) > cfg.MaxIdle) then
      ({ st with
          idle := ((obj, now) :: st.idle).dropLast,
          active := st.active - 1 },
        ((((obj, now) :: st.idle).getLast?).map Prod.fst).toList)
    else ({ st with idle := (obj, now) :: st.idle }, [])
  else ({ st with active := st.active - 1 }, [obj])

/-- `ActiveCount` (pool.go 153-158): a read of `active` with no side effect. -/
def ActiveCount {Obj : Type} (st : PoolState Obj) : Int :=
  st.active

/-- `Close` (pool.go 160-178): snapshot the idle queue, clear it, set
`closed`, subtract the snapshot length from `active`, then pass every
snapshot object to `DropCallback`, traversing the snapshot from `Front` to
`Back` — that is, newest first. -/
def Close {Obj : Type} (st : PoolState Obj) : PoolState Obj × List Obj :=
  ({ closed := true, active := st.active - st.idle.length, idle := [] },
    st.idle.map Prod.fst)

/-- Bookkeeping for traces: a successful `Get` hands one more object to the
caller; every other outcome hands out none. -/
def heldDelta {Obj Err : Type} : GetResult Obj Err → Nat
  | .ok _ => 1
  | _ => 0

/-- One client call in a sequential trace: a `Get` (with the `nowFunc` value
and the factory's prospective result), a `Put` of some held object, a
`Close`, or an `ActiveCount` read. -/
inductive PoolOp (Obj Err : Type) where
  | get (now : Int) (factory : Except Err Obj)
  | put (obj : Obj) (now : Int)
  | close
  | activeCount

/-- Run a trace from a state while tracking `held`, the number of objects
returned by a successful `Get` and not yet passed back to `Put`.  A `Put`
with no outstanding object (`held = 0`) is not a legal trace and yields
`none`: quantifying over traces on which `runTrace` succeeds quantifies
exactly over the call sequences in which every `Put` is passed an object
previously returned by a successful `Get` and not already put back. -/
def runTrace {Obj Err : Type} (cfg : PoolConfig Obj) :
    List (PoolOp Obj Err) → PoolState Obj → Nat → Option (PoolState Obj × Nat)
  | [], st, held => some (st, held)
  | .get now factory :: rest, st, held =>
    runTrace cfg rest (Get cfg st now factory).2.1
      (held + heldDelta (Get cfg st now factory).1)
  | .put obj now :: rest, st, held =>
    if held = 0 then none
    else runTrace cfg rest (Put cfg st now obj).1 (held - 1)
  | .close :: rest, st, held => runTrace cfg rest (Close st).1 held
  | .activeCount :: rest, st, held => runTrace cfg rest st held

/-- A concrete configuration for evaluating the model: factory present, no
validator, `MaxIdle = 1`, unlimited `MaxActive`, timeout eviction disabled,
`Wait = false`. -/
def cfgA : PoolConfig Nat :=
  { hasNew := true, testOnBorrow := none, MaxIdle := 1, MaxActive := 0,
    IdleTimeout := 0, Wait := false }

/-- A concrete configuration with an always-failing `TestOnBorrow`
validator. -/
def cfgB : PoolConfig Nat :=
  { hasNew := true, testOnBorrow := some (fun _ => false), MaxIdle := 2,
    MaxActive := 0, IdleTimeout := 0, Wait := false }

/-- A concrete configuration with `MaxActive = 1` and `Wait = false`. -/
def cfgC : PoolConfig Nat :=
  { hasNew := true, testOnBorrow := none, MaxIdle := 1, MaxActive := 1,
    IdleTimeout := 0, Wait := false }

/-- A concrete configuration with `IdleTimeout = 10`. -/
def cfgD : PoolConfig Nat :=
  { hasNew := true, testOnBorrow := none, MaxIdle := 3, MaxActive := 0,
    IdleTimeout := 10, Wait := false }

/-- A concrete configuration whose `New` factory field is nil. -/
def cfgE : PoolConfig Nat :=
  { hasNew := false, testOnBorrow := none, MaxIdle := 1, MaxActive := 0,
    IdleTimeout := 0, Wait := false }

/-- A concrete configuration with room for three idle objects. -/
def cfgF : PoolConfig Nat :=
  { hasNew := true, testOnBorrow := none, MaxIdle := 3, MaxActive := 0,
    IdleTimeout := 0, Wait := false }

/-- A concrete open pool state holding the single idle entry `(7, 0)`. -/
def stOne : PoolState Nat :=
  { closed := false, active := 1, idle := [(7, 0)] }

/-- A concrete open pool state holding idle objects `1` (front, newest,
pushed at time 10) and `0` (back, oldest, pushed at time 5). -/
def stTwo : PoolState Nat :=
  { closed := false, active := 2, idle := [(1, 10), (0, 5)] }

/-- A concrete open pool state with three idle entries whose ages at time 100
are 0, 5 and 50. -/
def stAged : PoolState Nat :=
  { closed := false, active := 3, idle := [(5, 100), (6, 95), (7, 50)] }

/-- A concrete closed, drained pool state with one outstanding object. -/
def stShut : PoolState Nat :=
  { closed := true, active := 1, idle := [] }

/-! ### Helper lemmas about the phases -/

theorem Put_open_trim {Obj : Type} (cfg : PoolConfig Obj) (st : PoolState Obj)
    (now : Int) (obj : Obj) (hclosed : st.closed = false)
    (hc : (((obj, now) :: st.idle).length : Int) > cfg.MaxIdle) :
    Put cfg st now obj =
      ({ st with
          idle := ((obj, now) :: st.idle).dropLast,
          active := st.active - 1 },
        ((((obj, now) :: st.idle).getLast?).map Prod.fst).toList) := by
  unfold Put
  rw [hclosed, if_pos rfl, if_pos hc]

theorem Put_open_keep {Obj : Type} (cfg : PoolConfig Obj) (st : PoolState Obj)
    (now : Int) (obj : Obj) (hclosed : st.closed = false)
    (hc : ¬ ((((obj, now) :: st.idle).length : Int) > cfg.MaxIdle)) :
    Put cfg st now obj = ({ st with idle := (obj, now) :: st.idle }, []) := by
  unfold Put
  rw [hclosed, if_pos rfl, if_neg hc]

theorem Put_closed {Obj : Type} (cfg : PoolConfig Obj) (st : PoolState Obj)
    (now : Int) (obj : Obj) (hclosed : st.closed = true) :
    Put cfg st now obj = ({ st with active := st.active - 1 }, [obj]) := by
  unfold Put
  rw [hclosed]
  simp

theorem length_takeWhile_add_dropWhile {α : Type} (p : α → Bool) (l : List α) :
    (l.takeWhile p).length + (l.dropWhile p).length = l.length := by
  induction l with
  | nil => rfl
  | cons a l ih =>
    by_cases h : p a = true <;>
      simp [List.takeWhile_cons, List.dropWhile_cons, h] <;> omega

theorem sweepOldestFirst_eq {Obj : Type} (timeout now : Int)
    (l : List (Obj × Int)) :
    sweepOldestFirst timeout now l =
      (l.dropWhile (fun e => decide (e.2 + timeout ≤ now)),
        (l.takeWhile (fun e => decide (e.2 + timeout ≤ now))).map Prod.fst) := by
  induction l with
  | nil => simp [sweepOldestFirst]
  | cons e rest ih =>
    by_cases h : e.2 + timeout > now
    · have hp : decide (e.2 + timeout ≤ now) = false := by
        simp only [decide_eq_false_iff_not]; omega
      simp [sweepOldestFirst, h, List.dropWhile_cons, List.takeWhile_cons, hp]
    · have hp : decide (e.2 + timeout ≤ now) = true := by
        simp only [decide_eq_true_eq]; omega
      simp [sweepOldestFirst, h, List.dropWhile_cons, List.takeWhile_cons, hp, ih]

theorem sweepPhase_closed {Obj : Type} (cfg : PoolConfig Obj)
    (st : PoolState Obj) (now : Int) :
    (sweepPhase cfg st now).1.closed = st.closed := by
  unfold sweepPhase; split <;> rfl

theorem sweepPhase_active {Obj : Type} (cfg : PoolConfig Obj)
    (st : PoolState Obj) (now : Int) :
    (sweepPhase cfg st now).1.active
      = st.active - (sweepPhase cfg st now).2.length := by
  unfold sweepPhase; split <;> simp

theorem sweepPhase_len {Obj : Type} (cfg : PoolConfig Obj)
    (st : PoolState Obj) (now : Int) :
    (sweepPhase cfg st now).1.idle.length + (sweepPhase cfg st now).2.length
      = st.idle.length := by
  unfold sweepPhase
  split
  · have h := length_takeWhile_add_dropWhile
      (fun e : Obj × Int => decide (e.2 + cfg.IdleTimeout ≤ now)) st.idle.reverse
    rw [List.length_reverse] at h
    simp only [sweepOldestFirst_eq, List.length_reverse, List.length_map]
    omega
  · simp

theorem reuseLoop_none {Obj : Type} (test : Option (Obj → Bool))
    (l : List (Obj × Int)) (h : (reuseLoop test l).1 = none) :
    (reuseLoop test l).2.1 = [] ∧ (reuseLoop test l).2.2.length = l.length := by
  induction l with
  | nil => simp [reuseLoop]
  | cons e rest ih =>
    cases test with
    | none => simp [reuseLoop] at h
    | some f =>
      cases hf : f e.1 with
      | true => rw [reuseLoop] at h; simp [hf] at h
      | false =>
        rw [reuseLoop] at h ⊢
        simp only [hf, Bool.false_eq_true, if_false] at h ⊢
        obtain ⟨h1, h2⟩ := ih h
        simp [h1, h2]

theorem reuseLoop_some {Obj : Type} (test : Option (Obj → Bool))
    (l : List (Obj × Int)) (o : Obj) (h : (reuseLoop test l).1 = some o) :
    (reuseLoop test l).2.1.length + (reuseLoop test l).2.2.length + 1
      = l.length := by
  induction l with
  | nil => simp [reuseLoop] at h
  | cons e rest ih =>
    cases test with
    | none => simp [reuseLoop]
    | some f =>
      cases hf : f e.1 with
      | true => simp [reuseLoop, hf]
      | false =>
        rw [reuseLoop] at h ⊢
        simp only [hf, Bool.false_eq_true, if_false] at h ⊢
        have := ih h
        simp only [List.length_cons]
        omega

theorem reuseLoop_allFail {Obj : Type} (f : Obj → Bool)
    (hf : ∀ x, f x = false) (l : List (Obj × Int)) :
    reuseLoop (some f) l = (none, [], l.map Prod.fst) := by
  induction l with
  | nil => rfl
  | cons e rest ih => rw [reuseLoop]; simp [hf e.1, ih]

theorem reusePhase_closed {Obj : Type} (cfg : PoolConfig Obj)
    (st : PoolState Obj) :
    (reusePhase cfg st).2.1.closed = st.closed := rfl

theorem reusePhase_active {Obj : Type} (cfg : PoolConfig Obj)
    (st : PoolState Obj) :
    (reusePhase cfg st).2.1.active
      = st.active - (reusePhase cfg st).2.2.length := rfl

theorem reusePhase_none {Obj : Type} (cfg : PoolConfig Obj)
    (st : PoolState Obj) (h : (reusePhase cfg st).1 = none) :
    (reusePhase cfg st).2.1.idle = []
      ∧ (reusePhase cfg st).2.1.active = st.active - st.idle.length := by
  obtain ⟨h1, h2⟩ := reuseLoop_none cfg.testOnBorrow st.idle h
  unfold reusePhase
  simp [h1, h2]

theorem reusePhase_some_len {Obj : Type} (cfg : PoolConfig Obj)
    (st : PoolState Obj) (o : Obj) (h : (reusePhase cfg st).1 = some o) :
    (reusePhase cfg st).2.1.idle.length + (reusePhase cfg st).2.2.length + 1
      = st.idle.length :=
  reuseLoop_some cfg.testOnBorrow st.idle o h

theorem phases_closed {Obj : Type} (cfg : PoolConfig Obj) (st : PoolState Obj)
    (now : Int) :
    (reusePhase cfg (sweepPhase cfg st now).1).2.1.closed = st.closed := by
  rw [reusePhase_closed, sweepPhase_closed]

theorem sweepPhase_nil {Obj : Type} (cfg : PoolConfig Obj) (st : PoolState Obj)
    (now : Int) (hi : st.idle = []) : sweepPhase cfg st now = (st, []) := by
  obtain ⟨c, a, i⟩ := st
  simp only at hi
  subst hi
  unfold sweepPhase
  split
  · simp [sweepOldestFirst]
  · rfl

theorem sweepPhase_off {Obj : Type} (cfg : PoolConfig Obj) (st : PoolState Obj)
    (now : Int) (h : cfg.IdleTimeout ≤ 0) : sweepPhase cfg st now = (st, []) := by
  unfold sweepPhase
  rw [if_neg (by omega)]

theorem reusePhase_nil {Obj : Type} (cfg : PoolConfig Obj) (st : PoolState Obj)
    (hi : st.idle = []) : reusePhase cfg st = (none, st, []) := by
  obtain ⟨c, a, i⟩ := st
  simp only at hi
  subst hi
  unfold reusePhase
  simp [reuseLoop]

theorem acquireTail_exhausted_iff {Obj Err : Type} (cfg : PoolConfig Obj)
    (st2 : PoolState Obj) (factory : Except Err Obj) :
    (acquireTail cfg st2 factory).1 = .failure .poolExhausted
      ↔ (st2.closed = false ∧ cfg.Wait = false ∧ cfg.MaxActive ≠ 0
          ∧ cfg.MaxActive ≤ st2.active) := by
  unfold acquireTail
  by_cases h1 : st2.closed = true
  · rw [if_pos h1]
    simp [h1]
  · rw [if_neg h1]
    by_cases h2 : cfg.MaxActive = 0 ∨ st2.active < cfg.MaxActive
    · rw [if_pos h2]
      constructor
      · intro h
        exfalso
        by_cases h3 : cfg.hasNew = true
        · rw [if_pos h3] at h
          cases factory <;> simp at h
        · rw [if_neg h3] at h
          simp at h
      · rintro ⟨-, -, hne, hge⟩
        rcases h2 with h2 | h2 <;> omega
    · rw [if_neg h2]
      push_neg at h2
      by_cases h4 : cfg.Wait = false
      · rw [if_pos h4]
        simp only [Bool.not_eq_true] at h1
        simp [h1, h4]
        omega
      · rw [if_neg h4]
        simp [h4]

/-! ### Preservation of the counting invariant -/

theorem acquireTail_inv {Obj Err : Type} (cfg : PoolConfig Obj)
    (st2 : PoolState Obj) (factory : Except Err Obj) :
    st2.active + (heldDelta (acquireTail cfg st2 factory).1 : Int)
        ≤ (acquireTail cfg st2 factory).2.active
      ∧ (acquireTail cfg st2 factory).2.idle = st2.idle := by
  unfold acquireTail
  split
  · simp [heldDelta]
  · split
    · split
      · cases factory <;> simp [heldDelta]
      · simp [heldDelta]
    · split <;> simp [heldDelta]

theorem Get_held_inv {Obj Err : Type} (cfg : PoolConfig Obj)
    (st : PoolState Obj) (now : Int) (factory : Except Err Obj) (held : Nat)
    (h : (st.idle.length : Int) + held ≤ st.active) :
    ((Get cfg st now factory).2.1.idle.length : Int)
        + (held + heldDelta (Get cfg st now factory).1)
      ≤ (Get cfg st now factory).2.1.active := by
  have hs_act := sweepPhase_active cfg st now
  have hs_len := sweepPhase_len cfg st now
  have h1 : ((sweepPhase cfg st now).1.idle.length : Int) + held
      ≤ (sweepPhase cfg st now).1.active := by omega
  have hr_act := reusePhase_active cfg (sweepPhase cfg st now).1
  rcases hr : (reusePhase cfg (sweepPhase cfg st now).1).1 with _ | o
  · obtain ⟨hi, ha⟩ := reusePhase_none cfg (sweepPhase cfg st now).1 hr
    obtain ⟨ht1, ht2⟩ :=
      acquireTail_inv cfg (reusePhase cfg (sweepPhase cfg st now).1).2.1 factory
    simp only [Get, hr]
    rw [ht2, hi]
    simp only [List.length_nil, Nat.cast_zero, zero_add]
    have hd : (heldDelta
        (acquireTail cfg (reusePhase cfg (sweepPhase cfg st now).1).2.1
          factory).1 : Int) = 0
        ∨ (heldDelta
        (acquireTail cfg (reusePhase cfg (sweepPhase cfg st now).1).2.1
          factory).1 : Int) = 1 := by
      cases (acquireTail cfg (reusePhase cfg (sweepPhase cfg st now).1).2.1
          factory).1 <;> simp [heldDelta]
    omega
  · have hlen := reusePhase_some_len cfg (sweepPhase cfg st now).1 o hr
    simp only [Get, hr, heldDelta]
    omega

theorem Put_held_inv {Obj : Type} (cfg : PoolConfig Obj) (st : PoolState Obj)
    (now : Int) (obj : Obj) (held : Nat) (hheld : 1 ≤ held)
    (h : (st.idle.length : Int) + held ≤ st.active) :
    ((Put cfg st now obj).1.idle.length : Int) + (held - 1 : Nat)
      ≤ (Put cfg st now obj).1.active := by
  unfold Put
  split
  · split
    · simp only [List.length_dropLast, List.length_cons]
      simp
      omega
    · simp
      omega
  · simp
    omega

theorem Close_held_inv {Obj : Type} (st : PoolState Obj) (held : Nat)
    (h : (st.idle.length : Int) + held ≤ st.active) :
    ((Close st).1.idle.length : Int) + held ≤ (Close st).1.active := by
  simp [Close]
  omega

theorem runTrace_inv {Obj Err : Type} (cfg : PoolConfig Obj)
    (ops : List (PoolOp Obj Err)) :
    ∀ (st : PoolState Obj) (held : Nat) (stF : PoolState Obj) (heldF : Nat),
      (st.idle.length : Int) + held ≤ st.active →
      runTrace cfg ops st held = some (stF, heldF) →
      (stF.idle.length : Int) + heldF ≤ stF.active := by
  induction ops with
  | nil =>
    intro st held stF heldF h hrun
    simp only [runTrace, Option.some_inj, Prod.mk.injEq] at hrun
    obtain ⟨h1, h2⟩ := hrun
    subst h1
    subst h2
    exact h
  | cons op rest ih =>
    intro st held stF heldF h hrun
    cases op with
    | get now factory =>
      simp only [runTrace] at hrun
      exact ih _ _ _ _ (Get_held_inv cfg st now factory held h) hrun
    | put obj now =>
      simp only [runTrace] at hrun
      split at hrun
      · exact absurd hrun (by simp)
      · rename_i h0
        exact ih _ _ _ _ (Put_held_inv cfg st now obj held (by omega) h) hrun
    | close =>
      simp only [runTrace] at hrun
      exact ih _ _ _ _ (Close_held_inv st held h) hrun
    | activeCount =>
      simp only [runTrace] at hrun
      exact ih _ _ _ _ h hrun

/-! ### The claims -/

/-- Claim C1: for every sequence of `Get`, `Put`, `Close` and `ActiveCount`
calls in which each `Put` is passed an object previously returned by a
successful `Get` and not already put back (a trace on which `runTrace`
succeeds), the pool state always satisfies
`activeCount ≥ idleQueue.length` and `activeCount ≥ 0`. -/
theorem c1_active_dominates_idle {Obj Err : Type} (cfg : PoolConfig Obj)
    (ops : List (PoolOp Obj Err)) (stF : PoolState Obj) (heldF : Nat)
    (h : runTrace cfg ops (NewPool Obj) 0 = some (stF, heldF)) :
    (stF.idle.length : Int) ≤ stF.active ∧ 0 ≤ stF.active := by
  have hinv := runTrace_inv cfg ops (NewPool Obj) 0 stF heldF (by simp [NewPool]) h
  constructor <;> omega

/-- Witness for C1 at a concrete trace: a `Get` that constructs, a `Put` of the
obtained object, then `Close`. -/
theorem c1_witness :
    ((({ closed := true, active := 0, idle := [] } : PoolState Nat).idle.length : Int)
        ≤ ({ closed := true, active := 0, idle := [] } : PoolState Nat).active)
      ∧ (0 ≤ ({ closed := true, active := 0, idle := [] } : PoolState Nat).active) :=
  c1_active_dominates_idle
    { hasNew := true, testOnBorrow := none, MaxIdle := 2, MaxActive := 0,
      IdleTimeout := 0, Wait := false }
    ([.get 0 (.ok 5), .put 5 1, .close] : List (PoolOp Nat Nat))
    { closed := true, active := 0, idle := [] } 0 (by decide)

/-- Claim C2: `Put` on an open pool with `0 ≤ MaxIdle` (and a queue currently
within the cap) pushes the object at the front of the idle queue stamped
with the current time; if the new length exceeds `MaxIdle`, the back
(oldest) entry — not necessarily the one just pushed — is removed, `active`
is decremented and the removed object is the one handed to the drop
callback; otherwise `active` is unchanged and nothing is dropped.  Either
way the queue length is at most `MaxIdle` when `Put` returns. -/
theorem c2_put_trim {Obj : Type} (cfg : PoolConfig Obj) (st : PoolState Obj)
    (now : Int) (obj : Obj)
    (hclosed : st.closed = false) (hmax : 0 ≤ cfg.MaxIdle)
    (hlen : (st.idle.length : Int) ≤ cfg.MaxIdle) :
    (if (((obj, now) :: st.idle).length : Int) > cfg.MaxIdle then
        (Put cfg st now obj).1.idle = ((obj, now) :: st.idle).dropLast
          ∧ (Put cfg st now obj).1.active = st.active - 1
          ∧ (Put cfg st now obj).2
              = ((((obj, now) :: st.idle).getLast?).map Prod.fst).toList
      else
        (Put cfg st now obj).1.idle = (obj, now) :: st.idle
          ∧ (Put cfg st now obj).1.active = st.active
          ∧ (Put cfg st now obj).2 = [])
      ∧ ((Put cfg st now obj).1.idle.length : Int) ≤ cfg.MaxIdle := by
  constructor
  · by_cases hc : (((obj, now) :: st.idle).length : Int) > cfg.MaxIdle
    · rw [if_pos hc, Put_open_trim cfg st now obj hclosed hc]
      exact ⟨rfl, rfl, rfl⟩
    · rw [if_neg hc, Put_open_keep cfg st now obj hclosed hc]
      exact ⟨rfl, rfl, rfl⟩
  · by_cases hc : (((obj, now) :: st.idle).length : Int) > cfg.MaxIdle
    · rw [Put_open_trim cfg st now obj hclosed hc]
      simp only [List.length_dropLast, List.length_cons] at hc ⊢
      omega
    · rw [Put_open_keep cfg st now obj hclosed hc]
      simp only [List.length_cons] at hc ⊢
      omega

/-- Witness for C2: putting `9` into an open pool with `MaxIdle = 1` that
already holds the idle entry `(7, 0)` trims the back entry `7`. -/
theorem c2_witness :
    (if (((9, 2) :: stOne.idle).length : Int) > cfgA.MaxIdle then
        (Put cfgA stOne 2 9).1.idle = ((9, 2) :: stOne.idle).dropLast
          ∧ (Put cfgA stOne 2 9).1.active = stOne.active - 1
          ∧ (Put cfgA stOne 2 9).2
              = ((((9, 2) :: stOne.idle).getLast?).map Prod.fst).toList
      else
        (Put cfgA stOne 2 9).1.idle = (9, 2) :: stOne.idle
          ∧ (Put cfgA stOne 2 9).1.active = stOne.active
          ∧ (Put cfgA stOne 2 9).2 = [])
      ∧ ((Put cfgA stOne 2 9).1.idle.length : Int) ≤ cfgA.MaxIdle :=
  c2_put_trim cfgA stOne 2 9 rfl (by decide) (by decide)

/-- Claim C5: when `IdleTimeout > 0` the sweep removes exactly the maximal run
of entries from the back (oldest end) whose age `now - t` is at least the
timeout — the boundary `age = IdleTimeout` is evicted — stopping at the
first back entry strictly younger and leaving all younger entries
untouched, decrementing `active` once per removal and dropping the removed
objects in removal order; when `IdleTimeout ≤ 0` the sweep does nothing. -/
theorem c5_timeout_sweep {Obj : Type} (cfg : PoolConfig Obj)
    (st : PoolState Obj) (now : Int) :
    (0 < cfg.IdleTimeout →
      (sweepPhase cfg st now).1.idle
          = (st.idle.reverse.dropWhile
              (fun e => decide (cfg.IdleTimeout ≤ now - e.2))).reverse
        ∧ (sweepPhase cfg st now).2
          = (st.idle.reverse.takeWhile
              (fun e => decide (cfg.IdleTimeout ≤ now - e.2))).map Prod.fst
        ∧ (sweepPhase cfg st now).1.active
          = st.active - (sweepPhase cfg st now).2.length)
      ∧ (cfg.IdleTimeout ≤ 0 → sweepPhase cfg st now = (st, [])) := by
  have hfun : (fun e : Obj × Int => decide (cfg.IdleTimeout ≤ now - e.2))
      = (fun e : Obj × Int => decide (e.2 + cfg.IdleTimeout ≤ now)) := by
    funext e
    rw [decide_eq_decide]
    omega
  constructor
  · intro h
    refine ⟨?_, ?_, sweepPhase_active cfg st now⟩
    · unfold sweepPhase
      rw [if_pos h, hfun, sweepOldestFirst_eq]
    · unfold sweepPhase
      rw [if_pos h, hfun, sweepOldestFirst_eq]
  · intro h
    unfold sweepPhase
    rw [if_neg (by omega)]

/-- Witness for C5: with `IdleTimeout = 10` at `now = 100`, the back entry
`(7, 50)` (age 50) is evicted while `(6, 95)` (age 5) and `(5, 100)`
survive, and a nonpositive timeout leaves the state alone. -/
theorem c5_witness :
    (sweepPhase cfgD stAged 100).1.idle
        = (stAged.idle.reverse.dropWhile
            (fun e => decide (cfgD.IdleTimeout ≤ 100 - e.2))).reverse
      ∧ (sweepPhase cfgD stAged 100).2
        = (stAged.idle.reverse.takeWhile
            (fun e => decide (cfgD.IdleTimeout ≤ 100 - e.2))).map Prod.fst
      ∧ (sweepPhase cfgD stAged 100).1.active
        = stAged.active - (sweepPhase cfgD stAged 100).2.length :=
  (c5_timeout_sweep cfgD stAged 100).1 (by decide)

/-- Claim C9 (amended): `Close` snapshots the idle queue, empties it, sets
`closed` to true, decrements `active` by exactly the snapshot length, and
hands every snapshot object to the drop callback exactly once, traversing
the snapshot from front to back — newest-to-oldest, not oldest-to-newest. -/
theorem c9_close_drains {Obj : Type} (st : PoolState Obj) :
    (Close st).1.closed = true ∧ (Close st).1.idle = []
      ∧ (Close st).1.active = st.active - st.idle.length
      ∧ (Close st).2 = st.idle.map Prod.fst :=
  ⟨rfl, rfl, rfl, rfl⟩

/-- Counterexample to C9 as stated: closing a pool whose idle queue holds
object `1` (pushed at time 10, the front/newest entry) and object `0`
(pushed at time 5, the back/oldest entry) hands the drop callback `[1, 0]`
— front to back — and not the oldest-to-newest order `[0, 1]`. -/
theorem c9_counterexample :
    (Close stTwo).2 ≠ (stTwo.idle.reverse).map Prod.fst := by
  decide

/-- Claim C3: `Get` returns `ErrPoolExhausted` (with a nil object) iff, after
the timeout sweep and the idle-reuse loop leave the idle queue empty, the
pool is not closed, `Wait` is false, `MaxActive` is nonzero and the active
count has reached `MaxActive`; in particular with `MaxActive = 0` `Get`
never returns `ErrPoolExhausted`. -/
theorem c3_exhausted_iff {Obj Err : Type} (cfg : PoolConfig Obj)
    (st : PoolState Obj) (now : Int) (factory : Except Err Obj) :
    ((Get cfg st now factory).1 = .failure .poolExhausted
        ↔ ((reusePhase cfg (sweepPhase cfg st now).1).1 = none
            ∧ st.closed = false ∧ cfg.Wait = false ∧ cfg.MaxActive ≠ 0
            ∧ cfg.MaxActive
              ≤ (reusePhase cfg (sweepPhase cfg st now).1).2.1.active))
      ∧ (cfg.MaxActive = 0
          → (Get cfg st now factory).1 ≠ .failure .poolExhausted) := by
  have main : (Get cfg st now factory).1 = .failure .poolExhausted
      ↔ ((reusePhase cfg (sweepPhase cfg st now).1).1 = none
          ∧ st.closed = false ∧ cfg.Wait = false ∧ cfg.MaxActive ≠ 0
          ∧ cfg.MaxActive
            ≤ (reusePhase cfg (sweepPhase cfg st now).1).2.1.active) := by
    have hc := phases_closed cfg st now
    rcases hr : (reusePhase cfg (sweepPhase cfg st now).1).1 with _ | o
    · simp only [Get, hr]
      rw [acquireTail_exhausted_iff cfg
        (reusePhase cfg (sweepPhase cfg st now).1).2.1 factory, hc]
      simp
    · simp [Get, hr]
  refine ⟨main, ?_⟩
  intro h0 hcon
  rcases main.mp hcon with ⟨-, -, -, hne, -⟩
  exact hne h0

/-- Claim C4: a closed pool with a drained idle queue is terminal: `Get`
returns a nil object with `ErrPoolClosed`, leaving the state untouched and
dropping nothing; `Put` decrements `active` by one and hands the returned
object to the drop callback without re-admitting it, so the queue stays
empty and the pool stays closed; a further `Close` also keeps the pool
closed and drained; and `Close` itself establishes this terminal shape
from any state. -/
theorem c4_closed_terminal {Obj Err : Type} (cfg : PoolConfig Obj)
    (st : PoolState Obj) (hc : st.closed = true) (hi : st.idle = []) :
    (∀ (now : Int) (factory : Except Err Obj),
        (Get cfg st now factory).1 = .failure .poolClosed
          ∧ (Get cfg st now factory).2.1 = st
          ∧ (Get cfg st now factory).2.2 = [])
      ∧ (∀ (now : Int) (obj : Obj),
          (Put cfg st now obj).1.closed = true
            ∧ (Put cfg st now obj).1.idle = []
            ∧ (Put cfg st now obj).1.active = st.active - 1
            ∧ (Put cfg st now obj).2 = [obj])
      ∧ ((Close st).1.closed = true ∧ (Close st).1.idle = [])
      ∧ (∀ st0 : PoolState Obj,
          (Close st0).1.closed = true ∧ (Close st0).1.idle = []) := by
  have h1 : (sweepPhase cfg st 0).1 = st := by
    rw [sweepPhase_nil cfg st 0 hi]
  refine ⟨?_, ?_, ⟨rfl, rfl⟩, fun st0 => ⟨rfl, rfl⟩⟩
  · intro now factory
    have hsw : sweepPhase cfg st now = (st, []) := sweepPhase_nil cfg st now hi
    have hsw1 : (sweepPhase cfg st now).1 = st := by rw [hsw]
    have hsw2 : (sweepPhase cfg st now).2 = [] := by rw [hsw]
    have hre : reusePhase cfg st = (none, st, []) := reusePhase_nil cfg st hi
    have hre1 : (reusePhase cfg st).1 = none := by rw [hre]
    have hre21 : (reusePhase cfg st).2.1 = st := by rw [hre]
    have hre22 : (reusePhase cfg st).2.2 = [] := by rw [hre]
    have hat : acquireTail cfg st factory
        = ((.failure .poolClosed : GetResult Obj Err), st) := by
      unfold acquireTail
      rw [hc]
      simp
    simp [Get, hsw1, hsw2, hre1, hre21, hre22, hat]
  · intro now obj
    rw [Put_closed cfg st now obj hc]
    exact ⟨hc, hi, rfl, rfl⟩

/-- Witness for C4: on the concrete closed drained pool, `Get` fails with the
pool-closed error and changes nothing, and `Put` only releases. -/
theorem c4_witness :
    ((Get cfgA stShut 3 (Except.ok 5 : Except Nat Nat)).1 = .failure .poolClosed
        ∧ (Get cfgA stShut 3 (Except.ok 5 : Except Nat Nat)).2.1 = stShut
        ∧ (Get cfgA stShut 3 (Except.ok 5 : Except Nat Nat)).2.2 = [])
      ∧ ((Put cfgA stShut 4 8).1.closed = true
          ∧ (Put cfgA stShut 4 8).1.idle = []
          ∧ (Put cfgA stShut 4 8).1.active = stShut.active - 1
          ∧ (Put cfgA stShut 4 8).2 = [8]) :=
  ⟨(@c4_closed_terminal Nat Nat cfgA stShut rfl rfl).1 3 (Except.ok 5),
    (@c4_closed_terminal Nat Nat cfgA stShut rfl rfl).2.1 4 8⟩

/-- Claim C6: when `Get` reaches the construction step and the factory
returns an error, `Get` returns exactly that error with a nil object, and
the `active` increment made before the factory call is undone, so `active`
on return equals its value just before the construction attempt. -/
theorem c6_construction_failure {Obj Err : Type} (cfg : PoolConfig Obj)
    (st : PoolState Obj) (now : Int) (e : Err)
    (hnone : (reusePhase cfg (sweepPhase cfg st now).1).1 = none)
    (hclosed : st.closed = false)
    (hcap : cfg.MaxActive = 0
      ∨ (reusePhase cfg (sweepPhase cfg st now).1).2.1.active < cfg.MaxActive)
    (hnew : cfg.hasNew = true) :
    (Get cfg st now (Except.error e)).1 = .failure (.constructionFailed e)
      ∧ (Get cfg st now (Except.error e)).2.1.active
        = (reusePhase cfg (sweepPhase cfg st now).1).2.1.active := by
  have hcl2 : (reusePhase cfg (sweepPhase cfg st now).1).2.1.closed = false := by
    rw [phases_closed]
    exact hclosed
  simp only [Get, hnone]
  unfold acquireTail
  rw [hcl2, if_neg (by simp), if_pos hcap, if_pos hnew]
  exact ⟨rfl, rfl⟩

/-- Witness for C6: on a fresh unlimited pool a factory error `42` is returned
verbatim and `active` returns to 0. -/
theorem c6_witness :
    (Get cfgA (NewPool Nat) 0 (Except.error (42 : Nat))).1
        = .failure (.constructionFailed 42)
      ∧ (Get cfgA (NewPool Nat) 0 (Except.error (42 : Nat))).2.1.active
        = (reusePhase cfgA (sweepPhase cfgA (NewPool Nat) 0).1).2.1.active :=
  c6_construction_failure cfgA (NewPool Nat) 0 42 (by decide) rfl
    (Or.inl rfl) rfl

/-- Claim C7: idle objects are reused in LIFO order: with no validator and
timeout eviction disabled, on an open pool with room for two more idle
entries, `Put a` followed by `Put b` and then a `Get` hands back `b`, the
most recently returned object. -/
theorem c7_lifo_reuse {Obj Err : Type} (cfg : PoolConfig Obj)
    (st : PoolState Obj) (a b : Obj) (n1 n2 n3 : Int)
    (factory : Except Err Obj)
    (hclosed : st.closed = false)
    (htest : cfg.testOnBorrow = none)
    (hto : cfg.IdleTimeout ≤ 0)
    (hcap : (st.idle.length : Int) + 2 ≤ cfg.MaxIdle) :
    (Get cfg (Put cfg (Put cfg st n1 a).1 n2 b).1 n3 factory).1 = .ok b := by
  have h1 : Put cfg st n1 a = ({ st with idle := (a, n1) :: st.idle }, []) :=
    Put_open_keep cfg st n1 a hclosed
      (by simp only [List.length_cons]; omega)
  have h2 : Put cfg { st with idle := (a, n1) :: st.idle } n2 b
      = ({ st with idle := (b, n2) :: (a, n1) :: st.idle }, []) :=
    Put_open_keep cfg { st with idle := (a, n1) :: st.idle } n2 b hclosed
      (by simp only [List.length_cons]; omega)
  have hst2 : (Put cfg (Put cfg st n1 a).1 n2 b).1
      = { st with idle := (b, n2) :: (a, n1) :: st.idle } := by
    rw [h1, h2]
  rw [hst2]
  have hs : (sweepPhase cfg { st with idle := (b, n2) :: (a, n1) :: st.idle }
      n3).1 = { st with idle := (b, n2) :: (a, n1) :: st.idle } := by
    rw [sweepPhase_off cfg _ n3 hto]
  have hr : (reusePhase cfg
      { st with idle := (b, n2) :: (a, n1) :: st.idle }).1 = some b := by
    show (reuseLoop cfg.testOnBorrow ((b, n2) :: (a, n1) :: st.idle)).1 = some b
    rw [htest, reuseLoop]
  simp only [Get, hs, hr]

/-- Witness for C7: on a fresh pool with `MaxIdle = 3`, putting `4` then `6`
and getting again returns `6`. -/
theorem c7_witness :
    (Get cfgF (Put cfgF (Put cfgF (NewPool Nat) 1 4).1 2 6).1 3
      (Except.ok 9 : Except Nat Nat)).1 = .ok 6 :=
  c7_lifo_reuse cfgF (NewPool Nat) 4 6 1 2 3 (Except.ok 9) rfl rfl
    (by decide) (by decide)

/-- Claim C8: validator failures are never surfaced as `Get`'s error: with a
validator failing every object, the reuse loop removes every idle
candidate, hands each to the drop callback and decrements `active` once
per candidate, then falls through; a `Get` on an open pool with capacity
and a working factory still succeeds with a freshly constructed object. -/
theorem c8_validator_silent {Obj Err : Type} (cfg : PoolConfig Obj)
    (st : PoolState Obj) (now : Int) (o : Obj) (f : Obj → Bool)
    (htest : cfg.testOnBorrow = some f) (hfail : ∀ x, f x = false)
    (hclosed : st.closed = false) (hnew : cfg.hasNew = true)
    (hcap : cfg.MaxActive = 0
      ∨ (reusePhase cfg (sweepPhase cfg st now).1).2.1.active
          < cfg.MaxActive) :
    (reusePhase cfg (sweepPhase cfg st now).1).1 = none
      ∧ (reusePhase cfg (sweepPhase cfg st now).1).2.1.idle = []
      ∧ (reusePhase cfg (sweepPhase cfg st now).1).2.2
        = (sweepPhase cfg st now).1.idle.map Prod.fst
      ∧ (reusePhase cfg (sweepPhase cfg st now).1).2.1.active
        = (sweepPhase cfg st now).1.active
          - (sweepPhase cfg st now).1.idle.length
      ∧ (Get cfg st now (Except.ok o : Except Err Obj)).1 = .ok o := by
  have hloop := reuseLoop_allFail f hfail (sweepPhase cfg st now).1.idle
  have h1 : (reusePhase cfg (sweepPhase cfg st now).1).1 = none := by
    unfold reusePhase
    rw [htest, hloop]
  have h2 : (reusePhase cfg (sweepPhase cfg st now).1).2.1.idle = [] := by
    unfold reusePhase
    rw [htest, hloop]
  have h3 : (reusePhase cfg (sweepPhase cfg st now).1).2.2
      = (sweepPhase cfg st now).1.idle.map Prod.fst := by
    unfold reusePhase
    rw [htest, hloop]
  have h4 : (reusePhase cfg (sweepPhase cfg st now).1).2.1.active
      = (sweepPhase cfg st now).1.active
        - (sweepPhase cfg st now).1.idle.length := by
    unfold reusePhase
    rw [htest, hloop]
    simp
  have hcl2 : (reusePhase cfg (sweepPhase cfg st now).1).2.1.closed = false := by
    rw [phases_closed]
    exact hclosed
  refine ⟨h1, h2, h3, h4, ?_⟩
  simp only [Get, h1]
  unfold acquireTail
  rw [hcl2, if_neg (by simp), if_pos hcap, if_pos hnew]

/-- Witness for C8: with the always-failing validator of `cfgB` and one idle
object, the candidate is discarded and the `Get` still succeeds with the
fresh object `3`. -/
theorem c8_witness :
    (reusePhase cfgB (sweepPhase cfgB stOne 5).1).1 = none
      ∧ (reusePhase cfgB (sweepPhase cfgB stOne 5).1).2.1.idle = []
      ∧ (reusePhase cfgB (sweepPhase cfgB stOne 5).1).2.2
        = (sweepPhase cfgB stOne 5).1.idle.map Prod.fst
      ∧ (reusePhase cfgB (sweepPhase cfgB stOne 5).1).2.1.active
        = (sweepPhase cfgB stOne 5).1.active
          - (sweepPhase cfgB stOne 5).1.idle.length
      ∧ (Get cfgB stOne 5 (Except.ok 3 : Except Nat Nat)).1 = .ok 3 :=
  c8_validator_silent cfgB stOne 5 3 (fun _ => false) rfl (fun _ => rfl)
    rfl rfl (Or.inl rfl)

/-- Claim C10: `Get` invokes the `New` factory field with no nil check: when
the factory field is nil and `Get` reaches the construction step (idle
queue exhausted, pool open, capacity available), the call is Go's
nil-function-call panic, reached with `active` already incremented. -/
theorem c10_nil_factory_crash {Obj Err : Type} (cfg : PoolConfig Obj)
    (st : PoolState Obj) (now : Int) (factory : Except Err Obj)
    (hnew : cfg.hasNew = false)
    (hnone : (reusePhase cfg (sweepPhase cfg st now).1).1 = none)
    (hclosed : st.closed = false)
    (hcap : cfg.MaxActive = 0
      ∨ (reusePhase cfg (sweepPhase cfg st now).1).2.1.active
          < cfg.MaxActive) :
    (Get cfg st now factory).1 = .nilFactoryCrash
      ∧ (Get cfg st now factory).2.1.active
        = (reusePhase cfg (sweepPhase cfg st now).1).2.1.active + 1 := by
  have hcl2 : (reusePhase cfg (sweepPhase cfg st now).1).2.1.closed = false := by
    rw [phases_closed]
    exact hclosed
  simp only [Get, hnone]
  unfold acquireTail
  rw [hcl2, if_neg (by simp), if_pos hcap, if_neg (by simp [hnew])]
  exact ⟨rfl, rfl⟩

/-- Witness for C10: a `Get` on a fresh pool whose factory field is nil ends
in the nil-function-call panic with `active` incremented to 1. -/
theorem c10_witness :
    (Get cfgE (NewPool Nat) 0 (Except.ok 0 : Except Nat Nat)).1
        = .nilFactoryCrash
      ∧ (Get cfgE (NewPool Nat) 0 (Except.ok 0 : Except Nat Nat)).2.1.active
        = (reusePhase cfgE (sweepPhase cfgE (NewPool Nat) 0).1).2.1.active
            + 1 :=
  c10_nil_factory_crash cfgE (NewPool Nat) 0 (Except.ok 0) rfl (by decide)
    rfl (Or.inl rfl)

end PoolVerif
